import Mathlib

/-!
Verification development for the Auto-Analyst backend's plan-execute-repair
pipeline.  The Python sources under `src/auto-analyst-backend` are shallowly
embedded: strings are lists of characters, Python dicts are association lists
with insert-overwrite semantics, the thread pool and the model capability are
explicit parameters, and fallible code returns `Except`/`Option`.  Regular
expressions from the source are embedded through a small executable matching
engine whose atoms mirror the constructs the source's patterns use.
-/

set_option maxRecDepth 10000

/-- Characters-as-lists representation of Python `str`. -/
abbrev Str := List Char

/-- Convert a Lean string literal to the embedded representation. -/
def str (s : String) : Str := s.data

/-- A single-quote character, kept out of string literals. -/
def sqc : String := (Char.ofNat 39).toString

/-- Python whitespace (`str.strip`, `str.split`, regex `\s`), ASCII range. -/
def pyIsSpace (c : Char) : Bool :=
  c = ' ' || c = '\t' || c = '\n' || c = '\r' || c = Char.ofNat 11 || c = Char.ofNat 12

/-- Regex `\w` / `[A-Za-z0-9_]` on ASCII input. -/
def isWordChar (c : Char) : Bool := c.isAlphanum || c = '_'

/-- Python `str.lower` on ASCII input. -/
def pyLower (s : Str) : Str := s.map Char.toLower

/-- Python `str.strip()`: drop leading and trailing whitespace. -/
def pyStrip (s : Str) : Str :=
  ((s.dropWhile pyIsSpace).reverse.dropWhile pyIsSpace).reverse

/-- Python `str.startswith`. -/
def pyStartsWith (s pre : Str) : Bool := pre.isPrefixOf s

/-- Does `pat` occur (as a contiguous substring) anywhere in `s`?
Mirrors Python `pat in s`. -/
def hasOccur (s pat : Str) : Bool :=
  (List.range (s.length + 1)).any (fun i => pat.isPrefixOf (s.drop i))

/-- Python `str.replace(pat, rep)` (all non-overlapping occurrences, left to
right), for a non-empty pattern; a positive `skip` drops characters already
consumed by the previous match. -/
def pyReplaceAux (pat rep : Str) : Str → Nat → Str
  | [], _ => []
  | _ :: cs, skip + 1 => pyReplaceAux pat rep cs skip
  | c :: cs, 0 =>
    if pat.isPrefixOf (c :: cs) then
      rep ++ pyReplaceAux pat rep cs (pat.length - 1)
    else
      c :: pyReplaceAux pat rep cs 0

/-- Python `str.replace(pat, rep)`. -/
def pyReplace (s pat rep : Str) : Str :=
  if pat = [] then s else pyReplaceAux pat rep s 0

/-- Python `str.split(sep)` for a non-empty separator; a positive `skip`
drops characters of the separator just crossed. -/
def pySplitAux (sep : Str) : Str → Nat → List Str
  | [], _ => [[]]
  | _ :: cs, skip + 1 => pySplitAux sep cs skip
  | c :: cs, 0 =>
    if sep.isPrefixOf (c :: cs) then
      [] :: pySplitAux sep cs (sep.length - 1)
    else
      match pySplitAux sep cs 0 with
      | [] => [[c]]
      | h :: t => (c :: h) :: t

/-- Python `str.split(sep)` for a non-empty separator. -/
def pySplitSub (sep : Str) (s : Str) : List Str := pySplitAux sep s 0

/-- Python `str.split()` (split on whitespace runs, dropping empties). -/
def pySplitWs (s : Str) : List Str :=
  (pySplitSub [' '] (s.map (fun c => if pyIsSpace c then ' ' else c))).filter (· ≠ [])

/-- Word count used by the token-estimation fallback (`len(text.split())`). -/
def wordCount (s : Str) : Nat := (pySplitWs s).length

/-- Python `'\n'.join`. -/
def joinNl (ls : List Str) : Str := (ls.intersperse (str "\n")).flatten

/-- `pat` occurs in `s` starting at index `i`. -/
def occursAt (s pat : Str) (i : Nat) : Prop := pat.isPrefixOf (s.drop i)

instance (s pat : Str) (i : Nat) : Decidable (occursAt s pat i) :=
  inferInstanceAs (Decidable (_ = true))

theorem pyReplaceAux_skip (pat rep : Str) :
    ∀ l t : Str, pyReplaceAux pat rep (l ++ t) l.length = pyReplaceAux pat rep t 0 := by
  intro l
  induction l with
  | nil => intro t; rfl
  | cons c cs ih => intro t; simpa [pyReplaceAux] using ih t

theorem pyReplaceAux_no_occ (pat rep : Str) :
    ∀ s : Str, (∀ i, ¬ occursAt s pat i) → pyReplaceAux pat rep s 0 = s := by
  intro s
  induction s with
  | nil => intro _; rfl
  | cons c cs ih =>
    intro h
    have h0 : ¬ pat.isPrefixOf (c :: cs) = true := by
      have := h 0
      simpa [occursAt] using this
    rw [pyReplaceAux, if_neg h0]
    have : ∀ i, ¬ occursAt cs pat i := by
      intro i hi
      exact h (i + 1) (by simpa [occursAt] using hi)
    rw [ih this]

theorem pyReplaceAux_head_occ (pat rep t : Str) (hpat : pat ≠ []) :
    pyReplaceAux pat rep (pat ++ t) 0 = rep ++ pyReplaceAux pat rep t 0 := by
  obtain ⟨c, cs, rfl⟩ : ∃ c cs, pat = c :: cs := by
    cases pat with
    | nil => exact absurd rfl hpat
    | cons c cs => exact ⟨c, cs, rfl⟩
  rw [List.cons_append, pyReplaceAux]
  have hpre : (c :: cs).isPrefixOf (c :: (cs ++ t)) := by
    simp [List.isPrefixOf_iff_prefix]
  rw [if_pos hpre]
  have hskip := pyReplaceAux_skip (c :: cs) rep cs t
  simp only [List.length_cons, Nat.add_sub_cancel] at hskip ⊢
  rw [hskip]

theorem pyReplaceAux_prepend (pat rep : Str) :
    ∀ pre rest : Str, (∀ i, i < pre.length → ¬ occursAt (pre ++ rest) pat i) →
    pyReplaceAux pat rep (pre ++ rest) 0 = pre ++ pyReplaceAux pat rep rest 0 := by
  intro pre
  induction pre with
  | nil => intro rest _; simp
  | cons c cs ih =>
    intro rest h
    have h0 : ¬ pat.isPrefixOf (c :: (cs ++ rest)) = true := by
      have := h 0 (by simp)
      simpa [occursAt] using this
    rw [List.cons_append, pyReplaceAux, if_neg h0]
    have : ∀ i, i < cs.length → ¬ occursAt (cs ++ rest) pat i := by
      intro i hi hocc
      exact h (i + 1) (by simpa using Nat.succ_lt_succ hi)
        (by simpa [occursAt] using hocc)
    rw [ih rest this]
    simp

/-- `str.replace` on a string with a unique, pinpointed occurrence of the
pattern replaces exactly that occurrence. -/
theorem pyReplace_single (pre pat post rep : Str) (hpat : pat ≠ [])
    (hpre : ∀ i, i < pre.length → ¬ occursAt (pre ++ pat ++ post) pat i)
    (hpost : ∀ i, ¬ occursAt post pat i) :
    pyReplace (pre ++ pat ++ post) pat rep = pre ++ rep ++ post := by
  rw [pyReplace, if_neg hpat]
  rw [List.append_assoc]
  rw [pyReplaceAux_prepend pat rep pre (pat ++ post)
    (by simpa [List.append_assoc] using hpre)]
  rw [pyReplaceAux_head_occ pat rep post hpat]
  rw [pyReplaceAux_no_occ pat rep post hpost]
  simp

/-- `hasOccur = false` rules out occurrences at every index. -/
theorem not_occursAt_of_hasOccur_false (s pat : Str) (hpat : pat ≠ [])
    (h : hasOccur s pat = false) : ∀ i, ¬ occursAt s pat i := by
  intro i hocc
  by_cases hi : i ≤ s.length
  · have : (List.range (s.length + 1)).any (fun j => pat.isPrefixOf (s.drop j)) = true := by
      refine List.any_eq_true.mpr ⟨i, ?_, hocc⟩
      exact List.mem_range.mpr (Nat.lt_succ_of_le hi)
    rw [hasOccur] at h
    rw [this] at h
    exact absurd h (by simp)
  · have : s.drop i = [] := List.drop_eq_nil_of_le (by omega)
    rw [occursAt, this] at hocc
    have : pat = [] := List.eq_nil_of_prefix_nil (List.isPrefixOf_iff_prefix.mp hocc)
    exact hpat this

/-!  ## A small executable matching engine

The source uses `re.search` / `re.findall` / `re.finditer` with a fixed set of
patterns.  Each pattern is embedded as a list of `Atom`s; the engine performs
the same leftmost search with ordered-alternation, greedy/lazy backtracking
semantics as Python's `re` restricted to these constructs.  -/

/-- One atom of an embedded regular expression. -/
inductive Atom where
  | lit (s : Str)
  | star (p : Char → Bool)
  | plus (p : Char → Bool)
  | rep (p : Char → Bool) (n : Nat)
  | opt (p : Char → Bool)
  | lazyAny
  | grp (i : Nat) (inner : List Atom)
  | alt (branches : List (List Atom))
  | look (inner : List Atom)
  | eos

/-- Captured groups: group index to captured text, most recent first. -/
abbrev Caps := List (Nat × Str)

/-- Record a capture (shadowing an earlier capture of the same group). -/
def capsInsert (caps : Caps) (i : Nat) (v : Str) : Caps := (i, v) :: caps

/-- Look up a captured group. -/
def capsGet (caps : Caps) (i : Nat) : Option Str :=
  (caps.find? (fun p => p.1 = i)).map (·.2)

mutual

/-- Match an atom list against `s`, calling the continuation on every
candidate suffix in Python's backtracking order and returning its first
success (`matchAlt` handles ordered alternation).  The structural `fuel`
argument strictly dominates the atom-structure steps of one match attempt
(each call descends into the pattern); `searchAtoms` supplies a fuel far
above the weight of every pattern in this file, so the `fuel = 0` case is
unreachable. -/
def matchAtoms : Nat → List Atom → Str → Caps →
    (Str → Caps → Option (Str × Caps)) → Option (Str × Caps)
  | 0, _, _, _, _ => none
  | _ + 1, [], s, caps, k => k s caps
  | fuel + 1, .lit l :: rest, s, caps, k =>
    if l.isPrefixOf s then matchAtoms fuel rest (s.drop l.length) caps k else none
  | fuel + 1, .star p :: rest, s, caps, k =>
    let m := (s.takeWhile p).length
    (List.range (m + 1)).findSome? (fun j => matchAtoms fuel rest (s.drop (m - j)) caps k)
  | fuel + 1, .plus p :: rest, s, caps, k =>
    let m := (s.takeWhile p).length
    (List.range m).findSome? (fun j => matchAtoms fuel rest (s.drop (m - j)) caps k)
  | fuel + 1, .rep p n :: rest, s, caps, k =>
    if n ≤ (s.takeWhile p).length then matchAtoms fuel rest (s.drop n) caps k else none
  | fuel + 1, .opt p :: rest, s, caps, k =>
    match s with
    | [] => matchAtoms fuel rest s caps k
    | c :: cs =>
      if p c then
        match matchAtoms fuel rest cs caps k with
        | some r => some r
        | none => matchAtoms fuel rest (c :: cs) caps k
      else matchAtoms fuel rest (c :: cs) caps k
  | fuel + 1, .lazyAny :: rest, s, caps, k =>
    (List.range (s.length + 1)).findSome? (fun n => matchAtoms fuel rest (s.drop n) caps k)
  | fuel + 1, .grp i inner :: rest, s, caps, k =>
    matchAtoms fuel inner s caps (fun s2 caps2 =>
      matchAtoms fuel rest s2 (capsInsert caps2 i (s.take (s.length - s2.length))) k)
  | fuel + 1, .alt bs :: rest, s, caps, k => matchAlt fuel bs rest s caps k
  | fuel + 1, .look inner :: rest, s, caps, k =>
    match matchAtoms fuel inner s caps (fun s2 caps2 => some (s2, caps2)) with
    | some _ => matchAtoms fuel rest s caps k
    | none => none
  | fuel + 1, .eos :: rest, s, caps, k =>
    if s = [] then matchAtoms fuel rest s caps k else none

/-- Ordered alternation: try each branch followed by the rest of the
pattern. -/
def matchAlt : Nat → List (List Atom) → List Atom → Str → Caps →
    (Str → Caps → Option (Str × Caps)) → Option (Str × Caps)
  | 0, _, _, _, _, _ => none
  | _ + 1, [], _, _, _, _ => none
  | fuel + 1, b :: bs, rest, s, caps, k =>
    match matchAtoms fuel (b ++ rest) s caps k with
    | some r => some r
    | none => matchAlt fuel bs rest s caps k

end

/-- Fuel passed to `matchAtoms`: strictly above the atom-structure weight of
every pattern in this file. -/
def matchFuel : Nat := 10000

/-- Python `re.search`: leftmost match, returning start, end and captures. -/
def searchAtoms (pat : List Atom) (s : Str) : Option (Nat × Nat × Caps) :=
  (List.range (s.length + 1)).findSome? (fun i =>
    match matchAtoms matchFuel pat (s.drop i) [] (fun rem caps => some (rem, caps)) with
    | some (rem, caps) => some (i, s.length - rem.length, caps)
    | none => none)

/-- Python slice `s[a:b]`. -/
def pySlice (s : Str) (a b : Nat) : Str := (s.take b).drop a

/-- Python `re.finditer`: non-overlapping matches, scanning left to right. -/
def findIterAux (pat : List Atom) : Str → Nat → Nat → List (Nat × Nat × Caps)
  | _, 0, _ => []
  | s, fuel + 1, base =>
    match searchAtoms pat s with
    | none => []
    | some (i, e, caps) =>
      let nextPos := if i < e then e else e + 1
      (base + i, base + e, caps) :: findIterAux pat (s.drop nextPos) fuel (base + nextPos)

/-- Python `re.finditer` over a whole string. -/
def findIter (pat : List Atom) (s : Str) : List (Nat × Nat × Caps) :=
  findIterAux pat s (s.length + 1) 0

/-- Greedy `\s+`. -/
def wsP : Atom := .plus pyIsSpace
/-- Greedy `\s*`. -/
def wsS : Atom := .star pyIsSpace
/-- Greedy `\w+`. -/
def wordP : Atom := .plus isWordChar

/-!  ## `src/routes/code_routes.py`: block extraction and repair  -/

/-- `===\s+ERROR\s+IN\s+([A-Za-z0-9_]+)\s+===\s*([\s\S]*?)(?:(?===\s+)|$)`
from `identify_error_blocks`. -/
def errorSectionPat : List Atom :=
  [.lit (str "==="), wsP, .lit (str "ERROR"), wsP, .lit (str "IN"), wsP,
   .grp 1 [.plus isWordChar], wsP, .lit (str "==="), wsS, .grp 2 [.lazyAny],
   .alt [[.look [.lit (str "=="), wsP]], [.eos]]]

/-- `#\s+(\w+)\s+code\s+start([\s\S]*?)#\s+\w+\s+code\s+end` from
`identify_error_blocks`' block scan. -/
def blockPat : List Atom :=
  [.lit (str "#"), wsP, .grp 1 [wordP], wsP, .lit (str "code"), wsP,
   .lit (str "start"), .grp 2 [.lazyAny], .lit (str "#"), wsP, wordP, wsP,
   .lit (str "code"), wsP, .lit (str "end")]

/-- `#\s+\w+\s+code\s+start\s*\n([\s\S]*?)#\s+\w+\s+code\s+end` used to cut
the interior of a block out in `fix_code_with_dspy`. -/
def innerPat : List Atom :=
  [.lit (str "#"), wsP, wordP, wsP, .lit (str "code"), wsP, .lit (str "start"),
   wsS, .lit (str "\n"), .grp 1 [.lazyAny], .lit (str "#"), wsP, wordP, wsP,
   .lit (str "code"), wsP, .lit (str "end")]

/-- `(#\s+\w+\s+code\s+start)`. -/
def startMarkerPat : List Atom :=
  [.lit (str "#"), wsP, wordP, wsP, .lit (str "code"), wsP, .lit (str "start")]

/-- `(#\s+\w+\s+code\s+end)`. -/
def endMarkerPat : List Atom :=
  [.lit (str "#"), wsP, wordP, wsP, .lit (str "code"), wsP, .lit (str "end")]

/-- `(TypeError|ValueError|AttributeError|IndexError|KeyError|NameError):\s*([^\n]+)`. -/
def errorTypePat : List Atom :=
  [.grp 1 [.alt [[.lit (str "TypeError")], [.lit (str "ValueError")],
     [.lit (str "AttributeError")], [.lit (str "IndexError")],
     [.lit (str "KeyError")], [.lit (str "NameError")]]],
   .lit (str ":"), wsS, .grp 2 [.plus (fun c => c ≠ '\n')]]

/-- `Problem at this location:([\s\S]*?)(?:\n\n|$)`. -/
def problemPat : List Atom :=
  [.lit (str "Problem at this location:"), .grp 1 [.lazyAny],
   .alt [[.lit (str "\n\n")], [.eos]]]

/-- Python-dict insert with overwrite, preserving insertion order. -/
def pyDictInsert {α : Type} (d : List (Str × α)) (k : Str) (v : α) : List (Str × α) :=
  if d.any (fun p => p.1 = k) then
    d.map (fun p => if p.1 = k then (k, v) else p)
  else d ++ [(k, v)]

/-- Python-dict lookup. -/
def pyDictGet {α : Type} (d : List (Str × α)) (k : Str) : Option α :=
  (d.find? (fun p => p.1 = k)).map (·.2)

/-- `re.findall` of `errorSectionPat`: `(agent_name, error_message)` pairs. -/
def error_findall (errorOutput : Str) : List (Str × Str) :=
  (findIter errorSectionPat errorOutput).map
    (fun r => ((capsGet r.2.2 1).getD [], (capsGet r.2.2 2).getD []))

/-- The block scan of `identify_error_blocks`: `(group(1), full match)`. -/
def block_finditer (code : Str) : List (Str × Str) :=
  (findIter blockPat code).map
    (fun r => ((capsGet r.2.2 1).getD [], pySlice code r.1 r.2.1))

/-- `extract_relevant_error_section` (code_routes.py:165-204). -/
def extract_relevant_error_section (errorMessage : Str) : Str :=
  let errorLines := pySplitSub (str "\n") (pyStrip errorMessage)
  let probe := str "Problem at this location:"
  let fallback : Str :=
    if 10 < errorLines.length then
      joinNl (errorLines.take 3 ++ errorLines.drop (errorLines.length - 3))
    else errorMessage
  if hasOccur errorMessage probe then
    match errorLines.findIdx? (fun l => hasOccur l probe) with
    | some problemIdx =>
      let endIdx := min (problemIdx + 10) errorLines.length
      let problemSection := (errorLines.drop problemIdx).take (endIdx - problemIdx)
      let errorTypeLines :=
        match errorLines.reverse.find? (fun l =>
          pyStartsWith l (str "TypeError:") || pyStartsWith l (str "ValueError:") ||
          pyStartsWith l (str "AttributeError:")) with
        | some l => [l]
        | none => []
      joinNl (problemSection ++ errorTypeLines)
    | none => fallback
  else fallback

/-- `'_agent'` suffix strip of `identify_error_blocks`. -/
def strip_agent_suffix (n : Str) : Str :=
  if (str "_agent").isSuffixOf n then n.take (n.length - 6) else n

/-- `identify_error_blocks(code, error_output)` (code_routes.py:110-164):
`(agent_name, block_code, processed_error)` triples. -/
def identify_error_blocks (code errorOutput : Str) : List (Str × Str × Str) :=
  let errorMatches := error_findall errorOutput
  if errorMatches = [] then []
  else
    let blocks : List (Str × Str) :=
      (block_finditer code).foldl (fun d nb => pyDictInsert d (pyLower nb.1) nb.2) []
    (errorMatches.foldl (fun (acc : List (Str × Str × Str) × List Str) em =>
      let normalized := strip_agent_suffix (pyLower em.1)
      match pyDictGet blocks normalized with
      | some b =>
        (acc.1 ++ [(normalized, b, extract_relevant_error_section em.2)],
         acc.2 ++ [normalized])
      | none =>
        match blocks.find? (fun bn =>
          !(acc.2.contains bn.1) &&
          (hasOccur normalized bn.1 || hasOccur bn.1 normalized)) with
        | some bn =>
          (acc.1 ++ [(bn.1, bn.2, extract_relevant_error_section em.2)],
           acc.2 ++ [bn.1])
        | none => acc) ([], [])).1

/-- The `error_msg` narrowing inside `fix_code_with_dspy`'s per-block loop. -/
def build_error_msg (specificError : Str) : Str :=
  let base :=
    match searchAtoms errorTypePat specificError with
    | some r => (capsGet r.2.2 1).getD [] ++ str ": " ++ (capsGet r.2.2 2).getD []
    | none => specificError
  if hasOccur specificError (str "Problem at this location:") then
    match searchAtoms problemPat specificError with
    | some r => base ++ str "\n\nProblem at: " ++ pyStrip ((capsGet r.2.2 1).getD [])
    | none => base
  else base

/-- The fixer-output clean-up: strip, and drop accidentally re-included
markers. -/
def clean_fixed (out : Str) : Str :=
  let f := pyStrip out
  if pyStartsWith f (str "#") && hasOccur f (str "code start") then
    match searchAtoms innerPat f with
    | some r => pyStrip ((capsGet r.2.2 1).getD [])
    | none => f
  else f

/-- The markdown-fence strip applied to the whole script before splicing:
`code.replace("```python", "").replace("```", "")`. -/
def strip_fences (code : Str) : Str :=
  pyReplace (pyReplace code (str "```python") []) (str "```") []

/-- Result of a repair run: the returned script plus the sequence of
`(dataset_context, faulty_code, error)` calls made to the fix capability. -/
structure FixOutcome where
  result : Str
  calls : List (Str × Str × Str)
deriving DecidableEq, Repr

/-- `fix_code_with_dspy(code, error, dataset_context)` (code_routes.py:207-308),
with the `dspy.ChainOfThought(code_fix)` capability passed in as `fixer`. -/
def fix_code_with_dspy (fixer : Str → Str → Str → Str)
    (code errorOutput datasetContext : Str) : FixOutcome :=
  let faultyBlocks := identify_error_blocks code errorOutput
  if faultyBlocks = [] then
    { result := fixer datasetContext code errorOutput,
      calls := [(datasetContext, code, errorOutput)] }
  else
    let resultCode := strip_fences code
    let out := faultyBlocks.foldl
      (fun (acc : Str × List (Str × Str × Str)) fb =>
        let blockCode := fb.2.1
        let specificError := fb.2.2
        match searchAtoms innerPat blockCode with
        | none => acc
        | some ir =>
          let innerCode := pyStrip ((capsGet ir.2.2 1).getD [])
          match searchAtoms startMarkerPat blockCode,
                searchAtoms endMarkerPat blockCode with
          | some sr, some er =>
            let startMarker := pySlice blockCode sr.1 sr.2.1
            let endMarker := pySlice blockCode er.1 er.2.1
            let errMsg := build_error_msg specificError
            let fixedInnerCode := clean_fixed (fixer datasetContext innerCode errMsg)
            let fixedBlock :=
              startMarker ++ str "\n\n" ++ fixedInnerCode ++ str "\n\n" ++ endMarker
            (pyReplace acc.1 blockCode fixedBlock,
             acc.2 ++ [(datasetContext, innerCode, errMsg)])
          | _, _ => acc)
      (resultCode, [])
    { result := out.1, calls := out.2 }

/-!  ## `src/agents/agents.py`: the `auto_analyst` planner/executor

`execute_plan` is embedded as a pure function of: the agent registry
(`self.agents` / `self.agent_inputs`, both keyed by agent name and built from
the same agent list), the JSON parser, the two retrieval snippets
(`self.dataset.retrieve(query)[0].text` and
`self.styling_index.retrieve(query)[0].text`, opaque capabilities), the goal,
and the plan dict.  Worker invocations are the registry's `run` functions
(`Except` models a raised exception).  `str(formatted_instructions)` is kept
as the structured association list it stringifies. -/

/-- A value of the per-step instruction mapping: either a dict with the
`create`/`use`/`instruction` keys, or any non-dict value (on which the
source's `.get` calls raise `AttributeError`). -/
inductive InstrEntry where
  | well (creates : List Str) (uses : List Str) (instruction : Str)
  | malformed
deriving DecidableEq

/-- A parsed `plan_instructions` value: a JSON/native object, or a non-dict
JSON value. -/
inductive ParsedInstr where
  | dict (m : List (Str × InstrEntry))
  | nonDict
deriving DecidableEq

/-- The raw `plan_instructions` field of a plan payload. -/
inductive RawPlanInstr where
  | strv (s : Str)
  | dictv (m : List (Str × InstrEntry))
  | otherv
deriving DecidableEq

/-- A plan dict as consumed by `execute_plan` (`plan.get("plan", "")`,
`plan.get("plan_instructions", {})`). -/
structure PlanDict where
  plan : Option Str
  plan_instructions : RawPlanInstr
deriving DecidableEq

/-- agents.py:1142-1152: accept the instruction payload as a JSON-encoded
string (`json.loads`, modelled by the `jsonLoads` parameter, `none` = raise)
or a native dict; anything else degrades to `{}`. -/
def parse_plan_instructions (jsonLoads : Str → Option ParsedInstr) :
    RawPlanInstr → ParsedInstr
  | .strv s =>
    match jsonLoads s with
    | some v => v
    | none => .dict []
  | .dictv m => .dict m
  | .otherv => .dict []

/-- agents.py:1137-1139: `plan.get("plan", "").replace("Plan", "")
.replace(":", "").strip()` split on `"->"`, stripped, empties dropped. -/
def parse_plan_list (planField : Str) : List Str :=
  let planText := pyStrip (pyReplace (pyReplace planField (str "Plan") []) (str ":") [])
  ((pySplitSub (str "->") planText).map pyStrip).filter (· ≠ [])

/-- One input-field name of an agent signature (`self.agent_inputs[name]`);
`other` stands for any field outside `dict_`'s keys, whose lookup raises
`KeyError`. -/
inductive AgentParam where
  | dataset
  | styling_index
  | goal
  | hint
  | plan_instructions
  | other (name : Str)
deriving DecidableEq

/-- A value of the `formatted_instructions` dict. -/
inductive FmtVal where
  | task (e : InstrEntry)
  | txt (s : Str)
deriving DecidableEq

/-- A value of the per-agent `inputs` dict. -/
inductive InputVal where
  | txt (s : Str)
  | hintList
  | instrFmt (l : List (Str × FmtVal))
deriving DecidableEq

/-- The `inputs` dict built for one agent. -/
abbrev Bundle := List (AgentParam × InputVal)

/-- The default of `plan_instructions.get(key, {"create": [], "use": [],
"instruction": ""})`. -/
def defaultEntry : InstrEntry := .well [] [] []

/-- `plan_instructions.get(name, {}).get("instruction", "")`; raises when the
entry is present but not a dict. -/
def instr_text (m : List (Str × InstrEntry)) (name : Str) : Except Str Str :=
  match pyDictGet m name with
  | none => .ok []
  | some (.well _ _ t) => .ok t
  | some .malformed => .error (str "AttributeError")

/-- agents.py:1170-1191: the `formatted_instructions` composite for the step
at `idx`: `your_task` first, then the previous step's instruction text when
`idx > 0`, then the next step's when `idx` is not last. -/
def build_formatted_instructions (m : List (Str × InstrEntry))
    (planList : List Str) (idx : Nat) : Except Str (List (Str × FmtVal)) :=
  let key := pyStrip (planList.getD idx [])
  let current := (pyDictGet m key).getD defaultEntry
  let base := [(str "your_task", FmtVal.task current)]
  match (if 0 < idx then
           (instr_text m (pyStrip (planList.getD (idx - 1) []))).map
             (fun t => [(str "Previous Agent " ++ pyStrip (planList.getD (idx - 1) []),
                         FmtVal.txt t)])
         else .ok []) with
  | .error e => .error e
  | .ok prevPart =>
    match (if idx < planList.length - 1 then
             (instr_text m (pyStrip (planList.getD (idx + 1) []))).map
               (fun t => [(str "Next Agent " ++ pyStrip (planList.getD (idx + 1) []),
                           FmtVal.txt t)])
           else .ok []) with
    | .error e => .error e
    | .ok nextPart => .ok (base ++ prevPart ++ nextPart)

/-- One registered agent: its declared input fields and its invocation
(`Except` = the call raised). -/
structure AgentSpec where
  params : List AgentParam
  run : Bundle → Except Str Str

/-- `self.agents` / `self.agent_inputs`, both built from the same agent
list. -/
abbrev Registry := Str → Option AgentSpec

/-- The shared bundle `dict_` of `execute_plan` (dataset and styling text,
`hint = []`, the goal); `other` fields are not in `dict_`. -/
def param_value (ds si goal : Str) : AgentParam → InputVal
  | .dataset => .txt ds
  | .styling_index => .txt si
  | .goal => .txt goal
  | .hint => .hintList
  | .plan_instructions => .hintList
  | .other _ => .hintList

/-- The dict comprehension `{param: dict_[param] for param in ...}`: a field
outside `dict_` raises `KeyError`. -/
def gather_params (ds si goal : Str) : List AgentParam →
    Except Str (List (AgentParam × InputVal))
  | [] => .ok []
  | p :: ps =>
    match p with
    | .other n => .error (str "KeyError: " ++ n)
    | _ =>
      match gather_params ds si goal ps with
      | .error e => .error e
      | .ok rest => .ok ((p, param_value ds si goal p) :: rest)

/-- agents.py:1161-1193: build the `inputs` dict for the step at `idx`.
`self.agent_inputs[key]` raises `KeyError` for an unregistered step; a
`dict_[param]` lookup outside the shared bundle raises `KeyError`; `.get` on a
non-dict instruction payload or entry raises `AttributeError`. -/
def build_inputs (reg : Registry) (ds si goal : Str) (instrs : ParsedInstr)
    (planList : List Str) (idx : Nat) : Except Str Bundle :=
  match reg (pyStrip (planList.getD idx [])) with
  | none => .error (str "KeyError: agent_inputs")
  | some spec =>
    match gather_params ds si goal
      (spec.params.filter (· ≠ AgentParam.plan_instructions)) with
    | .error e => .error e
    | .ok base =>
      if spec.params.contains AgentParam.plan_instructions then
        match instrs with
        | .nonDict => .error (str "AttributeError")
        | .dict m =>
          match build_formatted_instructions m planList idx with
          | .error e => .error e
          | .ok fmt => .ok (base ++ [(AgentParam.plan_instructions, InputVal.instrFmt fmt)])
      else .ok base

/-- The result dict of one worker. -/
inductive StepOut where
  | res (r : Str)
  | errDict (e : Str)
deriving DecidableEq

/-- agents.py:1102-1108 `execute_agent`: look up and invoke the agent; any
exception (including a missing agent) becomes `{"error": str(e)}`. -/
def execute_agent (reg : Registry) (agentName : Str) (b : Bundle) : Str × StepOut :=
  match reg (pyStrip agentName) with
  | none => (pyStrip agentName, .errDict (str "KeyError"))
  | some spec =>
    match spec.run b with
    | .ok r => (pyStrip agentName, .res r)
    | .error e => (pyStrip agentName, .errDict e)

/-- The second component of a yielded tuple. -/
inductive YieldInput where
  | bundle (b : Bundle)
  | planEcho (p : PlanDict)
deriving DecidableEq

/-- One yielded `(name, inputs, result)` tuple. -/
abbrev YieldTuple := Str × YieldInput × StepOut

/-- The `for idx, agent_name in enumerate(plan_list)` loop of
agents.py:1159-1194: build every step's inputs and submit it, aborting the
generator on a raised exception.  `rem` is the not-yet-visited tail of the
plan list, `idx` the enumeration index. -/
def build_futures_go (reg : Registry) (ds si goal : Str) (instrs : ParsedInstr)
    (planList : List Str) : List Str → Nat → Except Str (List (Str × Bundle))
  | [], _ => .ok []
  | _ :: rem, idx =>
    match build_inputs reg ds si goal instrs planList idx with
    | .error e => .error e
    | .ok b =>
      match build_futures_go reg ds si goal instrs planList rem (idx + 1) with
      | .error e => .error e
      | .ok rest => .ok ((planList.getD idx [], b) :: rest)

/-- The future-building loop over the whole plan list. -/
def build_futures (reg : Registry) (ds si goal : Str) (instrs : ParsedInstr)
    (planList : List Str) : Except Str (List (Str × Bundle)) :=
  build_futures_go reg ds si goal instrs planList planList 0

/-- agents.py:1128-1204 `execute_plan`, as the list of yielded tuples;
`.error` models an exception escaping the generator before all steps are
yielded. -/
def execute_plan (reg : Registry) (jsonLoads : Str → Option ParsedInstr)
    (ds si goal : Str) (plan : PlanDict) : Except Str (List YieldTuple) :=
  let planList := parse_plan_list (plan.plan.getD [])
  let instrs := parse_plan_instructions jsonLoads plan.plan_instructions
  if planList = [] then
    .ok [(str "plan_not_found", .planEcho plan, .errDict (str "No plan found"))]
  else
    match build_futures reg ds si goal instrs planList with
    | .error e => .error e
    | .ok futures =>
      .ok (futures.map (fun f =>
        ((execute_agent reg f.1 f.2).1, YieldInput.bundle f.2,
         (execute_agent reg f.1 f.2).2)))

/-- agents.py:1197-1204: the yield loop awaits `future.result` for each
future in submission order; pairing each future with its worker's completion
time, the tuple for future `i` is emitted at `max` of its own completion time
and the previous emission time — in submission order. -/
def yield_loop : List (Str × Nat) → Nat → List (Str × Nat)
  | [], _ => []
  | (n, t) :: rest, clock => (n, max clock t) :: yield_loop rest (max clock t)

/-- The order in which `execute_plan`'s loop emits tuples. -/
def emission_order (futures : List (Str × Nat)) : List Str :=
  (yield_loop futures 0).map (·.1)

/-- Stable insert by completion time. -/
def insertByTime (x : Str × Nat) : List (Str × Nat) → List (Str × Nat)
  | [] => [x]
  | y :: ys => if y.2 < x.2 then y :: insertByTime x ys else x :: y :: ys

/-- Modelled from the spec: "Order of emission is completion order, not plan
order" — the same futures sorted stably by worker completion time. -/
def completion_order (futures : List (Str × Nat)) : List Str :=
  ((futures.foldr insertByTime []).map (·.1))

/-!  ## `agents.py:983-1126`: attribute-query detection and the planner bypass -/

/-- Ordered alternation of literal words. -/
def altWords (ws : List String) : Atom := .alt (ws.map (fun w => [Atom.lit (str w)]))

/-- The color alternation of the attribute patterns. -/
def colorWords : List String :=
  ["green", "red", "blue", "black", "white", "silver", "gray", "yellow",
   "orange", "purple", "pink", "brown"]

/-- The make alternation of the attribute patterns. -/
def makeWords : List String :=
  ["toyota", "honda", "ford", "bmw", "mercedes", "audi", "tesla", "hyundai",
   "kia", "nissan", "chevrolet"]

/-- The condition alternation of the attribute patterns. -/
def condWords : List String := ["excellent", "good", "fair", "poor"]

/-- `attribute_patterns` of `detect_attribute_query` (agents.py:985-1008). -/
def attributePatterns : List (List Atom) :=
  [ [.lit (str "how many "), altWords colorWords, .lit (str " vehicles")],
    [.lit (str "count of "), altWords colorWords, .lit (str " "),
     altWords ["cars", "vehicles"]],
    [.lit (str "show me "), altWords colorWords, .lit (str " "),
     altWords ["cars", "vehicles"]],
    [.lit (str "how many "), altWords ["cars", "vehicles"], .lit (str " "),
     altWords ["cost", "are", "priced"], .lit (str " "),
     altWords ["less", "more", "under", "over"], .lit (str " than "),
     .opt (fun c => c = '$'), .plus Char.isDigit],
    [.lit (str "vehicles "), altWords ["under", "over"], .lit (str " "),
     .lit (str "$"), .plus Char.isDigit],
    [.lit (str "how many "), altWords makeWords, .lit (str " "),
     altWords ["cars", "vehicles"]],
    [.lit (str "count of "), altWords makeWords],
    [.lit (str "how many "), altWords condWords, .lit (str " condition "),
     altWords ["cars", "vehicles"]],
    [.lit (str "how many "), altWords ["cars", "vehicles"], .lit (str " from "),
     .alt [[.lit (str "year")], [.rep Char.isDigit 4]]],
    [.lit (str "how many "), altWords ["cars", "vehicles"], .lit (str " "),
     altWords ["made", "manufactured"], .lit (str " in "), .rep Char.isDigit 4] ]

/-- `detect_attribute_query` (agents.py:983-1013): any pattern matches the
lowercased query. -/
def detect_attribute_query (query : Str) : Bool :=
  attributePatterns.any (fun p => (searchAtoms p (pyLower query)).isSome)

/-- `how many (\w+) vehicles|show me (\w+) vehicles|count of (\w+) (vehicles|cars)`. -/
def colorSearchPat : List Atom :=
  [.alt [
    [.lit (str "how many "), .grp 1 [wordP], .lit (str " vehicles")],
    [.lit (str "show me "), .grp 2 [wordP], .lit (str " vehicles")],
    [.lit (str "count of "), .grp 3 [wordP], .lit (str " "),
     .grp 4 [.alt [[.lit (str "vehicles")], [.lit (str "cars")]]]]]]

/-- `how many (\w+) (vehicles|cars)`. -/
def makeSearchPat : List Atom :=
  [.lit (str "how many "), .grp 1 [wordP], .lit (str " "),
   .grp 2 [.alt [[.lit (str "vehicles")], [.lit (str "cars")]]]]

/-- `(excellent|good|fair|poor) condition`. -/
def condSearchPat : List Atom :=
  [.grp 1 [altWords condWords], .lit (str " condition")]

/-- `from (\d{4})|made in (\d{4})|manufactured in (\d{4})`. -/
def yearSearchPat : List Atom :=
  [.alt [
    [.lit (str "from "), .grp 1 [.rep Char.isDigit 4]],
    [.lit (str "made in "), .grp 2 [.rep Char.isDigit 4]],
    [.lit (str "manufactured in "), .grp 3 [.rep Char.isDigit 4]]]]

/-- `(under|over) \$?(\d+)`. -/
def priceSearchPat : List Atom :=
  [.grp 1 [.alt [[.lit (str "under")], [.lit (str "over")]]], .lit (str " "),
   .opt (fun c => c = '$'), .grp 2 [.plus Char.isDigit]]

/-- `match.groups()` restricted to the given group numbers. -/
def groupsOf (caps : Caps) (idxs : List Nat) : List (Option Str) :=
  idxs.map (capsGet caps)

/-- The one-step bypass plan for a non-price attribute query
(agents.py:1084-1099). -/
def attribute_plan_dict (ty v : Str) : PlanDict :=
  { plan := some (str "planner_data_viz_agent"),
    plan_instructions := .dictv [(str "planner_data_viz_agent",
      .well
        [ty ++ str "_filtered_chart: PlotlyFigure - chart showing count of vehicles filtered by " ++ ty]
        [str "df: DataFrame - the vehicles dataset with attribute information"]
        (str "Filter the dataset to count vehicles where " ++ ty ++ str "=" ++
         str sqc ++ v ++ str sqc ++
         str " (case-insensitive) and create a visualization showing the count and percentage of total. Make sure to explicitly state the count in the chart title and use case-insensitive matching by converting values to lowercase before comparing."))] }

/-- The one-step bypass plan for a price query (agents.py:1063-1082). -/
def price_plan_dict (op v : Str) : PlanDict :=
  { plan := some (str "planner_data_viz_agent"),
    plan_instructions := .dictv [(str "planner_data_viz_agent",
      .well
        [str "price_filtered_chart: PlotlyFigure - chart showing vehicles filtered by price"]
        [str "df: DataFrame - the vehicles dataset with price information"]
        (str "Filter the dataset for vehicles where price " ++ op ++ str " " ++ v ++
         str " and create a visualization showing the count and percentage of total. Make sure to explicitly state the count in the chart title."))] }

/-- `get_attribute_plan` (agents.py:1016-1100). -/
def get_attribute_plan (query : Str) : Option PlanDict :=
  let q := pyLower query
  let cv : Option Str :=
    match searchAtoms colorSearchPat q with
    | some r =>
      match (groupsOf r.2.2 [1, 2, 3, 4]).find? (fun g =>
        match g with
        | some s => s ≠ [] && s ≠ str "vehicles" && s ≠ str "cars"
        | none => false) with
      | some g => g
      | none => none
    | none => none
  let p1 : Option Str × Option Str :=
    match cv with
    | some v =>
      if (colorWords.map str).contains (pyLower v) then (some (str "color"), some v)
      else (none, none)
    | none => (none, none)
  let p2 : Option Str × Option Str :=
    if p1.1.isSome then p1
    else
      match searchAtoms makeSearchPat q with
      | some r =>
        match capsGet r.2.2 1 with
        | some mv =>
          if (makeWords.map str).contains (pyLower mv) then (some (str "make"), some mv)
          else p1
        | none => p1
      | none => p1
  let p3 : Option Str × Option Str :=
    if p2.1.isSome then p2
    else
      match searchAtoms condSearchPat q with
      | some r => (some (str "condition"), some ((capsGet r.2.2 1).getD []))
      | none => p2
  let p4 : Option Str × Option Str :=
    if p3.1.isSome then p3
    else
      match searchAtoms yearSearchPat q with
      | some r =>
        match (groupsOf r.2.2 [1, 2, 3]).find? (fun g =>
          match g with
          | some s => s ≠ []
          | none => false) with
        | some (some yv) => if yv ≠ [] then (some (str "year"), some yv) else p3
        | _ => p3
      | none => p3
  match (if p4.1.isSome then none else searchAtoms priceSearchPat q) with
  | some r =>
    let comparison := (capsGet r.2.2 1).getD []
    let priceValue := (capsGet r.2.2 2).getD []
    some (price_plan_dict (if comparison = str "under" then str "<" else str ">") priceValue)
  | none =>
    match p4 with
    | (some t, some v) => if t ≠ [] && v ≠ [] then some (attribute_plan_dict t v) else none
    | _ => none

/-- `get_plan` (agents.py:1110-1126): the bypass, falling back to the model
planner (opaque; its `dict(plan)` result is passed in). -/
def get_plan (plannerResult : PlanDict) (query : Str) : PlanDict :=
  if detect_attribute_query query then
    match get_attribute_plan query with
    | some p => p
    | none => plannerResult
  else plannerResult

/-- The output fields declared by the `analytical_planner` signature
(agents.py:198-199). -/
def plannerOutputFields : List Str := [str "plan", str "plan_instructions"]

/-- The field names a plan dict offers to `execute_plan`. -/
def planDictFields (p : PlanDict) : List Str :=
  (if p.plan.isSome then [str "plan"] else []) ++ [str "plan_instructions"]

/-!  ## `app.py`: token estimation and usage records -/

/-- `DEFAULT_TOKEN_RATIO = 1.5` (app.py:492); `int(words * 1.5)` is
`3 * words / 2` rounded toward zero. -/
def fallback_tokens (words : Nat) : Nat := 3 * words / 2

/-- The dict returned by `_estimate_tokens`. -/
structure TokenEstimate where
  prompt : Nat
  completion : Nat
  total : Nat
deriving DecidableEq

/-- `_estimate_tokens` (app.py:937-954): exact tokenizer (a parameter;
`Except` = raise) on both texts, else word-count fallback for both. -/
def estimate_tokens (tokenizer : Str → Except Str Nat)
    (inputText outputText : Str) : TokenEstimate :=
  match tokenizer inputText, tokenizer outputText with
  | .ok pt, .ok ct => ⟨pt, ct, pt + ct⟩
  | _, _ =>
    ⟨fallback_tokens (wordCount inputText), fallback_tokens (wordCount outputText),
     fallback_tokens (wordCount inputText) + fallback_tokens (wordCount outputText)⟩

/-- Round-half-even to an integer (Python `round`; floats idealized as
rationals). -/
def round_half_even (q : ℚ) : ℤ :=
  if q - ⌊q⌋ < 1 / 2 then ⌊q⌋
  else if 1 / 2 < q - ⌊q⌋ then ⌊q⌋ + 1
  else if 2 ∣ ⌊q⌋ then ⌊q⌋ else ⌊q⌋ + 1

/-- Python `round(x, 7)`. -/
def py_round_7 (q : ℚ) : ℚ := (round_half_even (q * 10 ^ 7) : ℚ) / 10 ^ 7

/-- One `ModelUsage` row. -/
structure UsageRecord where
  user_id : Option Nat
  chat_id : Option Nat
  model_name : Str
  provider : Str
  prompt_tokens : Nat
  completion_tokens : Nat
  total_tokens : Nat
  query_size : Nat
  response_size : Nat
  cost : ℚ
  request_time_ms : Nat
  is_streaming : Bool
deriving DecidableEq

/-- The session fields consumed by the usage-tracking paths. -/
structure SessionState where
  user_id : Option Nat
  chat_id : Option Nat
  model_name : Str
deriving DecidableEq

/-- Python truthiness of an id value (`if not user_id`, `if session_state.get("user_id"):`). -/
def py_truthy_id : Option Nat → Bool
  | none => false
  | some n => n ≠ 0

/-- `_create_usage_record` (app.py:957-978): `cost = round(calculate_cost(...), 7)`
with `calculate_cost`/`get_provider_for_model` opaque parameters. -/
def create_usage_record (costFn : Str → Nat → Nat → ℚ) (providerFn : Str → Str)
    (ss : SessionState) (modelName : Str) (promptTokens completionTokens : Nat)
    (querySize responseSize processingTimeMs : Nat) (isStreaming : Bool) :
    UsageRecord :=
  { user_id := ss.user_id
    chat_id := ss.chat_id
    model_name := modelName
    provider := providerFn modelName
    prompt_tokens := promptTokens
    completion_tokens := completionTokens
    total_tokens := promptTokens + completionTokens
    query_size := querySize
    response_size := responseSize
    cost := py_round_7 (costFn modelName promptTokens completionTokens)
    request_time_ms := processingTimeMs
    is_streaming := isStreaming }

/-!  ## `src/managers/ai_manager.py`: `save_usage_to_db` -/

/-- The relational store visible to `save_usage_to_db`. -/
structure Db where
  users : List Nat
  chats : List Nat
  usage : List UsageRecord
deriving DecidableEq

/-- Failure injection for the save: no failure, or an exception raised while
verifying ids, while committing, or while broadcasting (after commit). -/
inductive SaveFail where
  | noFail
  | onVerify
  | onCommit
  | onBroadcast
deriving DecidableEq

/-- The body of `save_usage_to_db`'s `try` block; `.error` carries the
database state visible after the raise (a rollback after a successful commit
leaves the committed row in place). -/
def save_usage_inner (db : Db) (fail : SaveFail) (rec : UsageRecord) :
    Except Db Db :=
  if fail = .onVerify then .error db
  else
    let uid := match rec.user_id with
      | some u => if db.users.contains u then some u else none
      | none => none
    let cid := match rec.chat_id with
      | some c => if db.chats.contains c then some c else none
      | none => none
    if fail = .onCommit then .error db
    else
      let committed : Db :=
        { db with usage := db.usage ++ [{ rec with user_id := uid, chat_id := cid }] }
      if fail = .onBroadcast then .error committed else .ok committed

/-- `AI_Manager.save_usage_to_db` (ai_manager.py:29-78): ids whose referenced
`User`/`Chat` row is absent are set to `None` before the insert; any exception
is caught and logged (`session.rollback()`), never propagated. -/
def save_usage_to_db (db : Db) (fail : SaveFail) (rec : UsageRecord) : Db :=
  match save_usage_inner db fail rec with
  | .ok d => d
  | .error d => d

/-- `_track_model_usage` (app.py:718-779): falsy ids are set to `None`, token
counts are computed exactly or by the word-count fallback, cost is rounded to
7 decimal places, and the record is saved via `save_usage_to_db`. -/
def track_model_usage (costFn : Str → Nat → Nat → ℚ) (providerFn : Str → Str)
    (tokenizer : Str → Except Str Nat) (db : Db) (fail : SaveFail)
    (ss : SessionState) (enhancedQuery response : Str) (processingTimeMs : Nat) :
    Db :=
  let userId := if py_truthy_id ss.user_id then ss.user_id else none
  let chatId := if py_truthy_id ss.chat_id then ss.chat_id else none
  let est := estimate_tokens tokenizer enhancedQuery response
  save_usage_to_db db fail
    { user_id := userId
      chat_id := chatId
      model_name := ss.model_name
      provider := providerFn ss.model_name
      prompt_tokens := est.prompt
      completion_tokens := est.completion
      total_tokens := est.prompt + est.completion
      query_size := enhancedQuery.length
      response_size := response.length
      cost := py_round_7 (costFn ss.model_name est.prompt est.completion)
      request_time_ms := processingTimeMs
      is_streaming := false }

/-- The usage-tracking slice of `chat_with_agent` (app.py:574-581): tracking
runs only under `if session_state.get("user_id"):`. -/
def chat_with_agent_usage (costFn : Str → Nat → Nat → ℚ) (providerFn : Str → Str)
    (tokenizer : Str → Except Str Nat) (db : Db) (fail : SaveFail)
    (ss : SessionState) (enhancedQuery response : Str) (processingTimeMs : Nat) :
    Db :=
  if py_truthy_id ss.user_id then
    track_model_usage costFn providerFn tokenizer db fail ss enhancedQuery
      response processingTimeMs
  else db

/-- Number of `# <STEP> code start` / `# <STEP> code end` markers in a
script (spec §6 "Code block markers"). -/
def marker_count (s : Str) : Nat :=
  (findIter startMarkerPat s).length + (findIter endMarkerPat s).length

/-- One step is registered and its input fields all lie in the shared bundle;
a step consuming `plan_instructions` additionally requires the parsed payload
to be a dict. -/
def step_ok (reg : Registry) (instrs : ParsedInstr) (s : Str) : Bool :=
  match reg (pyStrip s) with
  | none => false
  | some spec =>
    spec.params.all (fun p => match p with | .other _ => false | _ => true) &&
    (if spec.params.contains AgentParam.plan_instructions then
       match instrs with
       | .nonDict => false
       | .dict _ => true
     else true)

/-- No instruction entry consulted for a plan step is a non-dict value. -/
def entries_ok (instrs : ParsedInstr) (planList : List Str) : Bool :=
  match instrs with
  | .dict m => planList.all (fun s =>
      match pyDictGet m (pyStrip s) with
      | some .malformed => false
      | _ => true)
  | .nonDict => true

/-- Side conditions under which `execute_plan`'s input-building loop raises no
exception. -/
def registered_ok (reg : Registry) (instrs : ParsedInstr) (planList : List Str) : Bool :=
  planList.all (step_ok reg instrs) && entries_ok instrs planList

theorem list_getD_map {α β : Type} (f : α → β) (l : List α) (d : β) (d2 : α) :
    ∀ i, i < l.length → (l.map f).getD i d = f (l.getD i d2) := by
  induction l with
  | nil => intro i hi; simp at hi
  | cons a l ih =>
    intro i hi
    cases i with
    | zero => rfl
    | succ j =>
      have := ih j (by simpa using Nat.lt_of_succ_lt_succ hi)
      simpa using this

theorem gather_params_ok (ds si goal : Str) :
    ∀ ps : List AgentParam,
    (ps.all (fun p => match p with | .other _ => false | _ => true) = true) →
    gather_params ds si goal ps = .ok (ps.map (fun p => (p, param_value ds si goal p))) := by
  intro ps
  induction ps with
  | nil => intro _; rfl
  | cons p ps ih =>
    intro h
    rw [List.all_cons, Bool.and_eq_true] at h
    cases p with
    | other n => simp at h
    | dataset => simp only [gather_params, ih h.2, List.map_cons]
    | styling_index => simp only [gather_params, ih h.2, List.map_cons]
    | goal => simp only [gather_params, ih h.2, List.map_cons]
    | hint => simp only [gather_params, ih h.2, List.map_cons]
    | plan_instructions => simp only [gather_params, ih h.2, List.map_cons]

theorem instr_text_ok (m : List (Str × InstrEntry)) (k : Str)
    (h : pyDictGet m k ≠ some .malformed) : ∃ t, instr_text m k = .ok t := by
  unfold instr_text
  cases hg : pyDictGet m k with
  | none => exact ⟨[], rfl⟩
  | some e =>
    cases e with
    | well c u t => exact ⟨t, rfl⟩
    | malformed => exact absurd hg h

theorem build_formatted_ok (m : List (Str × InstrEntry)) (planList : List Str)
    (idx : Nat)
    (hm : ∀ s ∈ planList, pyDictGet m (pyStrip s) ≠ some .malformed)
    (hidx : idx < planList.length) :
    ∃ l, build_formatted_instructions m planList idx = .ok l := by
  have hmem : ∀ j, j < planList.length →
      pyDictGet m (pyStrip (planList.getD j [])) ≠ some .malformed := by
    intro j hj
    have : planList.getD j [] ∈ planList := by
      rw [List.getD_eq_getElem planList [] hj]
      exact List.getElem_mem hj
    exact hm _ this
  unfold build_formatted_instructions
  by_cases h0 : 0 < idx
  · obtain ⟨tp, htp⟩ := instr_text_ok m (pyStrip (planList.getD (idx - 1) []))
      (hmem (idx - 1) (by omega))
    by_cases h1 : idx < planList.length - 1
    · obtain ⟨tn, htn⟩ := instr_text_ok m (pyStrip (planList.getD (idx + 1) []))
        (hmem (idx + 1) (by omega))
      exact ⟨_, by rw [if_pos h0, htp, if_pos h1, htn]; try rfl⟩
    · exact ⟨_, by rw [if_pos h0, htp, if_neg h1]; try rfl⟩
  · by_cases h1 : idx < planList.length - 1
    · obtain ⟨tn, htn⟩ := instr_text_ok m (pyStrip (planList.getD (idx + 1) []))
        (hmem (idx + 1) (by omega))
      exact ⟨_, by rw [if_neg h0, if_pos h1, htn]; try rfl⟩
    · exact ⟨_, by rw [if_neg h0, if_neg h1]; try rfl⟩

theorem build_inputs_ok (reg : Registry) (ds si goal : Str) (instrs : ParsedInstr)
    (planList : List Str) (i : Nat)
    (hok : registered_ok reg instrs planList = true) (hi : i < planList.length) :
    ∃ b, build_inputs reg ds si goal instrs planList i = .ok b := by
  rw [registered_ok, Bool.and_eq_true] at hok
  obtain ⟨hsteps0, hentries0⟩ := hok
  rw [List.all_eq_true] at hsteps0
  have hmem : planList.getD i [] ∈ planList := by
    rw [List.getD_eq_getElem planList [] hi]
    exact List.getElem_mem hi
  have hs := hsteps0 _ hmem
  unfold step_ok at hs
  unfold build_inputs
  cases hreg : reg (pyStrip (planList.getD i [])) with
  | none => rw [hreg] at hs; simp at hs
  | some spec =>
    rw [hreg] at hs
    rw [Bool.and_eq_true] at hs
    obtain ⟨hparams, hinstr⟩ := hs
    dsimp only
    have hfiltered : ((spec.params.filter (· ≠ AgentParam.plan_instructions)).all
        (fun p => match p with | .other _ => false | _ => true)) = true := by
      rw [List.all_eq_true] at hparams ⊢
      intro p hp
      exact hparams p (List.mem_of_mem_filter hp)
    rw [gather_params_ok ds si goal _ hfiltered]
    dsimp only
    by_cases hc : spec.params.contains AgentParam.plan_instructions = true
    · rw [if_pos hc]
      cases hin : instrs with
      | nonDict =>
        rw [hc] at hinstr
        rw [hin] at hinstr
        simp at hinstr
      | dict m =>
        have hm : ∀ s ∈ planList, pyDictGet m (pyStrip s) ≠ some .malformed := by
          rw [hin] at hentries0
          have hall : (planList.all (fun s =>
              match pyDictGet m (pyStrip s) with
              | some InstrEntry.malformed => false
              | _ => true)) = true := hentries0
          have hentries := List.all_eq_true.mp hall
          intro s hsmem hbad
          have := hentries s hsmem
          rw [hbad] at this
          simp at this
        obtain ⟨l, hl⟩ := build_formatted_ok m planList i hm hi
        dsimp only
        rw [hl]
        exact ⟨_, rfl⟩
    · rw [if_neg hc]
      exact ⟨_, rfl⟩

theorem build_futures_go_ok (reg : Registry) (ds si goal : Str)
    (instrs : ParsedInstr) (planList : List Str)
    (hbuild : ∀ i, i < planList.length →
      ∃ b, build_inputs reg ds si goal instrs planList i = .ok b) :
    ∀ rem : List Str, ∀ idx, idx + rem.length ≤ planList.length →
    ∃ fs, build_futures_go reg ds si goal instrs planList rem idx = .ok fs ∧
      fs.length = rem.length ∧
      ∀ j, j < fs.length →
        ∃ b, build_inputs reg ds si goal instrs planList (idx + j) = .ok b ∧
          fs.getD j ([], []) = (planList.getD (idx + j) [], b) := by
  intro rem
  induction rem with
  | nil =>
    intro idx _
    exact ⟨[], rfl, rfl, by intro j hj; simp at hj⟩
  | cons hd rem ih =>
    intro idx hle
    have hlt : idx < planList.length := by
      simp only [List.length_cons] at hle
      omega
    obtain ⟨b, hb⟩ := hbuild idx hlt
    obtain ⟨fs, hfs, hlen, hget⟩ := ih (idx + 1)
      (by simp only [List.length_cons] at hle; omega)
    refine ⟨(planList.getD idx [], b) :: fs, ?_,
      by simp only [List.length_cons, hlen], ?_⟩
    · unfold build_futures_go
      rw [hb, hfs]
    · intro j hj
      cases j with
      | zero => exact ⟨b, by simpa using hb, rfl⟩
      | succ j2 =>
        obtain ⟨b2, hb2, hgd⟩ := hget j2 (by simpa using Nat.lt_of_succ_lt_succ hj)
        refine ⟨b2, ?_, ?_⟩
        · have : idx + (j2 + 1) = idx + 1 + j2 := by omega
          rw [this]
          exact hb2
        · have : idx + (j2 + 1) = idx + 1 + j2 := by omega
          rw [this]
          simpa using hgd

theorem build_futures_ok (reg : Registry) (ds si goal : Str)
    (instrs : ParsedInstr) (planList : List Str)
    (hbuild : ∀ i, i < planList.length →
      ∃ b, build_inputs reg ds si goal instrs planList i = .ok b) :
    ∃ fs, build_futures reg ds si goal instrs planList = .ok fs ∧
      fs.length = planList.length ∧
      ∀ j, j < fs.length →
        ∃ b, build_inputs reg ds si goal instrs planList j = .ok b ∧
          fs.getD j ([], []) = (planList.getD j [], b) := by
  obtain ⟨fs, hfs, hlen, hget⟩ :=
    build_futures_go_ok reg ds si goal instrs planList hbuild planList 0 (by omega)
  refine ⟨fs, hfs, hlen, ?_⟩
  intro j hj
  obtain ⟨b, hb, hgd⟩ := hget j hj
  exact ⟨b, by simpa using hb, by simpa using hgd⟩

/-- The key of the first entry of an instruction payload (used to state facts
about the one-step bypass plan). -/
def first_instruction_key : RawPlanInstr → Str
  | .dictv ((k, _) :: _) => k
  | _ => []

/-- The instruction text of the first entry of an instruction payload. -/
def first_instruction_text : RawPlanInstr → Str
  | .dictv ((_, InstrEntry.well _ _ t) :: _) => t
  | _ => []

/-- C2: the claim (and the source's own "yield results as they complete"
comment) says tuples are emitted in completion order; the loop at
agents.py:1197-1204 awaits each future in dispatch order, so with a two-step
plan whose second worker completes first (t=1 before t=5), the first-dispatched
step is still emitted first — emission order is plan order, not completion
order. -/
theorem execute_plan_emits_in_plan_order_not_completion_order :
    emission_order [(str "preprocessing_agent", 5), (str "statistical_analytics_agent", 1)] =
      [str "preprocessing_agent", str "statistical_analytics_agent"] ∧
    completion_order [(str "preprocessing_agent", 5), (str "statistical_analytics_agent", 1)] =
      [str "statistical_analytics_agent", str "preprocessing_agent"] ∧
    emission_order [(str "preprocessing_agent", 5), (str "statistical_analytics_agent", 1)] ≠
      completion_order [(str "preprocessing_agent", 5), (str "statistical_analytics_agent", 1)] := by
  decide

/-- C10: `save_usage_to_db` coerces a `user_id`/`chat_id` whose referenced row
is absent to `None`, appends the record otherwise unchanged, and catches every
failure (returning with the pre-raise database state — for a failure after the
commit, the committed row stays) instead of propagating it. -/
theorem save_usage_to_db_coerces_and_catches (db : Db) (fail : SaveFail)
    (rec : UsageRecord) :
    save_usage_to_db db fail rec =
      match fail with
      | .onVerify => db
      | .onCommit => db
      | _ =>
        { db with usage := db.usage ++
            [{ rec with
                user_id := match rec.user_id with
                  | some u => if db.users.contains u then some u else none
                  | none => none,
                chat_id := match rec.chat_id with
                  | some c => if db.chats.contains c then some c else none
                  | none => none }] } := by
  cases fail <;> rfl

/-- C9 counterexample: with a raising tokenizer, the input `" "` is non-empty
but has zero words, so the fallback prompt-token count is 0 — refuting
"promptTokens is greater than 0 whenever the input text is non-empty". -/
theorem estimate_tokens_whitespace_counterexample :
    estimate_tokens (fun _ => .error (str "tokenizer failure")) (str " ") (str "x") =
      { prompt := 0, completion := 1, total := 1 } ∧ str " " ≠ [] := by
  constructor
  · rfl
  · decide

/-- C9 amended: when the exact tokenizer raises on either text, both counts
are `int(wordCount * 1.5)` with the same ratio on both sides, and promptTokens
is positive whenever the input text contains at least one word (one
non-whitespace character) — not merely whenever it is non-empty. -/
theorem estimate_tokens_fallback (tokenizer : Str → Except Str Nat)
    (inputText outputText : Str)
    (hfail : (∃ e, tokenizer inputText = .error e) ∨
             (∃ e, tokenizer outputText = .error e)) :
    estimate_tokens tokenizer inputText outputText =
      { prompt := fallback_tokens (wordCount inputText),
        completion := fallback_tokens (wordCount outputText),
        total := fallback_tokens (wordCount inputText) +
                 fallback_tokens (wordCount outputText) } ∧
    (0 < wordCount inputText →
      0 < (estimate_tokens tokenizer inputText outputText).prompt) := by
  have hres : estimate_tokens tokenizer inputText outputText =
      { prompt := fallback_tokens (wordCount inputText),
        completion := fallback_tokens (wordCount outputText),
        total := fallback_tokens (wordCount inputText) +
                 fallback_tokens (wordCount outputText) } := by
    unfold estimate_tokens
    cases hin : tokenizer inputText with
    | error e => cases tokenizer outputText <;> rfl
    | ok pt =>
      cases hout : tokenizer outputText with
      | error e => rfl
      | ok ct =>
        rcases hfail with ⟨e, he⟩ | ⟨e, he⟩
        · rw [hin] at he; exact absurd he (by simp)
        · rw [hout] at he; exact absurd he (by simp)
  refine ⟨hres, fun hwc => ?_⟩
  rw [hres]
  show 0 < fallback_tokens (wordCount inputText)
  unfold fallback_tokens
  omega

/-- C9 amended, witnessed at a concrete raising tokenizer. -/
theorem estimate_tokens_fallback_witness :
    estimate_tokens (fun _ => .error (str "boom")) (str "hello world") (str "ok") =
      { prompt := 3, completion := 1, total := 4 } := by
  have h := estimate_tokens_fallback (fun _ => .error (str "boom"))
    (str "hello world") (str "ok") (Or.inl ⟨str "boom", rfl⟩)
  rw [h.1]
  rfl

/-- C5 counterexample: in `chat_with_agent` the usage-tracking block runs only
under `if session_state.get("user_id"):`, so with `user_id` and `chat_id` both
null no usage record is written at all — refuting "a usage record is written
even when userId and chatId are both null". -/
theorem chat_with_agent_null_ids_writes_no_record :
    (chat_with_agent_usage (fun _ _ _ => 0) (fun _ => str "openai")
      (fun _ => .ok 1) { users := [], chats := [], usage := [] } .noFail
      { user_id := none, chat_id := none, model_name := str "o3-mini" }
      (str "q") (str "r") 5).usage = [] := by
  rfl

/-- C5 amended: every stored cost equals `calculate_cost` (opaque; the module
defining it is not in the source tree) rounded to 7 decimal places, and
`_track_model_usage`/`save_usage_to_db` do write the record even when both ids
are null — but the `chat_with_agent` call site only invokes tracking when
`user_id` is truthy, so no record at all is written there for a null user. -/
theorem usage_cost_rounded_and_tracking_gated
    (costFn : Str → Nat → Nat → ℚ) (providerFn : Str → Str)
    (tokenizer : Str → Except Str Nat) (db : Db) (fail : SaveFail)
    (ss : SessionState) (modelName : Str) (pt ct qs rs ptm : Nat) (st : Bool)
    (q resp : Str) :
    (create_usage_record costFn providerFn ss modelName pt ct qs rs ptm st).cost =
      py_round_7 (costFn modelName pt ct) ∧
    (track_model_usage costFn providerFn tokenizer db .noFail
        { user_id := none, chat_id := none, model_name := modelName }
        q resp ptm).usage =
      db.usage ++
        [{ user_id := none
           chat_id := none
           model_name := modelName
           provider := providerFn modelName
           prompt_tokens := (estimate_tokens tokenizer q resp).prompt
           completion_tokens := (estimate_tokens tokenizer q resp).completion
           total_tokens := (estimate_tokens tokenizer q resp).prompt +
             (estimate_tokens tokenizer q resp).completion
           query_size := q.length
           response_size := resp.length
           cost := py_round_7 (costFn modelName (estimate_tokens tokenizer q resp).prompt
             (estimate_tokens tokenizer q resp).completion)
           request_time_ms := ptm
           is_streaming := false }] ∧
    chat_with_agent_usage costFn providerFn tokenizer db fail
        { user_id := none, chat_id := none, model_name := modelName }
        q resp ptm = db := by
  refine ⟨rfl, ?_, rfl⟩
  rfl

/-- C7: the `plan_instructions` payload is accepted as a native dict or a
JSON-encoded string; a string that fails to parse, and any value of another
shape, degrade to the empty instruction mapping, and plan execution with such
a payload proceeds exactly as with an explicit empty mapping (each step gets
the default empty instructions) rather than failing. -/
theorem plan_instructions_payload_degradation
    (jsonLoads : Str → Option ParsedInstr) (s1 s2 : Str)
    (m m2 : List (Str × InstrEntry)) (reg : Registry) (ds si goal : Str)
    (planField : Option Str)
    (hfail : jsonLoads s1 = none) (hparse : jsonLoads s2 = some (.dict m2)) :
    parse_plan_instructions jsonLoads (.strv s1) = .dict [] ∧
    parse_plan_instructions jsonLoads .otherv = .dict [] ∧
    parse_plan_instructions jsonLoads (.dictv m) = .dict m ∧
    parse_plan_instructions jsonLoads (.strv s2) = .dict m2 ∧
    (parse_plan_list (planField.getD []) ≠ [] →
      execute_plan reg jsonLoads ds si goal
          { plan := planField, plan_instructions := .strv s1 } =
        execute_plan reg jsonLoads ds si goal
          { plan := planField, plan_instructions := .dictv [] }) := by
  refine ⟨?_, rfl, rfl, ?_, ?_⟩
  · simp [parse_plan_instructions, hfail]
  · simp [parse_plan_instructions, hparse]
  · intro hne
    unfold execute_plan
    simp [parse_plan_instructions, hfail, hne]

/-- C7 witness: a concrete parser that fails on one payload and parses the
other to a one-entry mapping. -/
theorem plan_instructions_payload_degradation_witness :
    parse_plan_instructions
        (fun t => if t = str "[1, 2]" then none
                  else some (.dict [(str "a", defaultEntry)]))
        (.strv (str "[1, 2]")) = .dict [] := by
  have h := plan_instructions_payload_degradation
    (fun t => if t = str "[1, 2]" then none
              else some (.dict [(str "a", defaultEntry)]))
    (str "[1, 2]") (str "ok") [] [(str "a", defaultEntry)]
    (fun _ => none) (str "d") (str "s") (str "g") none
    (by decide) (by decide)
  exact h.1

/-- C6: for a step at index `idx` that consumes plan instructions, the
composite built at agents.py:1170-1191 binds `your_task` to the step's own
entry (defaulting to empty create/use/instruction when absent), binds
`Previous Agent <name>` to the previous step's instruction text exactly when
`idx > 0`, and binds `Next Agent <name>` to the next step's instruction text
exactly when `idx` is not the last index. -/
theorem build_formatted_instructions_composite (m : List (Str × InstrEntry))
    (planList : List Str) (idx : Nat) (hidx : idx < planList.length)
    (hprev : 0 < idx →
      pyDictGet m (pyStrip (planList.getD (idx - 1) [])) ≠ some .malformed)
    (hnext : idx < planList.length - 1 →
      pyDictGet m (pyStrip (planList.getD (idx + 1) [])) ≠ some .malformed) :
    build_formatted_instructions m planList idx = .ok (
      [(str "your_task",
        FmtVal.task ((pyDictGet m (pyStrip (planList.getD idx []))).getD defaultEntry))] ++
      (if 0 < idx then
        [(str "Previous Agent " ++ pyStrip (planList.getD (idx - 1) []),
          FmtVal.txt (match pyDictGet m (pyStrip (planList.getD (idx - 1) [])) with
            | some (InstrEntry.well _ _ t) => t
            | _ => []))]
       else []) ++
      (if idx < planList.length - 1 then
        [(str "Next Agent " ++ pyStrip (planList.getD (idx + 1) []),
          FmtVal.txt (match pyDictGet m (pyStrip (planList.getD (idx + 1) [])) with
            | some (InstrEntry.well _ _ t) => t
            | _ => []))]
       else [])) := by
  have htext : ∀ k : Str, pyDictGet m k ≠ some .malformed →
      instr_text m k = .ok (match pyDictGet m k with
        | some (InstrEntry.well _ _ t) => t
        | _ => []) := by
    intro k hk
    unfold instr_text
    cases hg : pyDictGet m k with
    | none => rfl
    | some e =>
      cases e with
      | well c u t => rfl
      | malformed => exact absurd hg hk
  unfold build_formatted_instructions
  by_cases h0 : 0 < idx
  · rw [if_pos h0, htext _ (hprev h0)]
    by_cases h1 : idx < planList.length - 1
    · rw [if_pos h1, htext _ (hnext h1)]
      simp [Except.map, h0, h1]
    · rw [if_neg h1]
      simp [Except.map, h0, h1]
  · rw [if_neg h0]
    by_cases h1 : idx < planList.length - 1
    · rw [if_pos h1, htext _ (hnext h1)]
      simp [Except.map, h0, h1]
    · rw [if_neg h1]
      simp [Except.map, h0, h1]

/-- C6 witness: a three-step plan with instructions for each step, at the
middle index. -/
theorem build_formatted_instructions_composite_witness :
    build_formatted_instructions
      [(str "a", InstrEntry.well [] [] (str "ta")),
       (str "c", InstrEntry.well [] [] (str "tc"))]
      [str "a", str "b", str "c"] 1 = .ok
      [(str "your_task", FmtVal.task defaultEntry),
       (str "Previous Agent " ++ str "a", FmtVal.txt (str "ta")),
       (str "Next Agent " ++ str "c", FmtVal.txt (str "tc"))] := by
  have h := build_formatted_instructions_composite
    [(str "a", InstrEntry.well [] [] (str "ta")),
     (str "c", InstrEntry.well [] [] (str "tc"))]
    [str "a", str "b", str "c"] 1 (by decide)
    (fun _ => by decide) (fun _ => by decide)
  rw [h]
  rfl

/-- C1 counterexample: a parsed plan step with no registered input signature
makes `execute_plan` raise an uncaught `KeyError` at
`self.agent_inputs[key]` (agents.py:1166) before any tuple is yielded, so a
one-step plan yields zero result tuples instead of one. -/
theorem execute_plan_unregistered_step_crashes :
    execute_plan (fun _ => none) (fun _ => none) (str "d") (str "s") (str "g")
      { plan := some (str "preprocessing_agent"), plan_instructions := .dictv [] } =
      .error (str "KeyError: agent_inputs") := by
  rfl

/-- C1 amended: provided every parsed step has a registered input signature
over the shared bundle and the consulted instruction entries are mappings
(`registered_ok`), `execute_plan` yields exactly one tuple per planned step
(or the single `("plan_not_found", plan, error)` sentinel for an empty parse),
and each step's tuple is `execute_agent`'s output on that step's inputs, which
converts a raised invocation into an `{"error": ...}` result instead of
aborting the other steps. -/
theorem execute_plan_one_tuple_per_step (reg : Registry)
    (jsonLoads : Str → Option ParsedInstr) (ds si goal : Str) (p : PlanDict)
    (hok : registered_ok reg
      (parse_plan_instructions jsonLoads p.plan_instructions)
      (parse_plan_list (p.plan.getD [])) = true) :
    ∃ ys, execute_plan reg jsonLoads ds si goal p = .ok ys ∧
      ys.length = (if parse_plan_list (p.plan.getD []) = [] then 1
                   else (parse_plan_list (p.plan.getD [])).length) ∧
      (parse_plan_list (p.plan.getD []) = [] →
        ys = [(str "plan_not_found", .planEcho p, .errDict (str "No plan found"))]) ∧
      ∀ i, i < (parse_plan_list (p.plan.getD [])).length →
        ∃ b, build_inputs reg ds si goal
              (parse_plan_instructions jsonLoads p.plan_instructions)
              (parse_plan_list (p.plan.getD [])) i = .ok b ∧
          ys.getD i ([], .planEcho p, .errDict []) =
            ((execute_agent reg ((parse_plan_list (p.plan.getD [])).getD i []) b).1,
             .bundle b,
             (execute_agent reg ((parse_plan_list (p.plan.getD [])).getD i []) b).2) ∧
          ∀ spec e, reg (pyStrip ((parse_plan_list (p.plan.getD [])).getD i [])) = some spec →
            spec.run b = .error e →
            (ys.getD i ([], .planEcho p, .errDict [])).2.2 = .errDict e := by
  by_cases hL : parse_plan_list (p.plan.getD []) = []
  · refine ⟨[(str "plan_not_found", .planEcho p, .errDict (str "No plan found"))],
      ?_, by rw [if_pos hL]; rfl, fun _ => rfl, ?_⟩
    · unfold execute_plan
      rw [if_pos hL]
    · intro i hi
      rw [hL] at hi
      simp at hi
  · have hbuild : ∀ i, i < (parse_plan_list (p.plan.getD [])).length →
        ∃ b, build_inputs reg ds si goal
          (parse_plan_instructions jsonLoads p.plan_instructions)
          (parse_plan_list (p.plan.getD [])) i = .ok b :=
      fun i hi => build_inputs_ok reg ds si goal _ _ i hok hi
    obtain ⟨fs, hfs, hlen, hget⟩ := build_futures_ok reg ds si goal
      (parse_plan_instructions jsonLoads p.plan_instructions)
      (parse_plan_list (p.plan.getD [])) hbuild
    refine ⟨fs.map (fun f => ((execute_agent reg f.1 f.2).1, .bundle f.2,
      (execute_agent reg f.1 f.2).2)), ?_, ?_, fun h => absurd h hL, ?_⟩
    · unfold execute_plan
      rw [if_neg hL, hfs]
    · rw [if_neg hL]
      simp [hlen]
    · intro i hi
      obtain ⟨b, hb, hgd⟩ := hget i (by omega)
      refine ⟨b, hb, ?_, ?_⟩
      · have hmap := list_getD_map
          (fun f : Str × Bundle => ((execute_agent reg f.1 f.2).1, YieldInput.bundle f.2,
            (execute_agent reg f.1 f.2).2)) fs
          ([], .planEcho p, .errDict []) ([], []) i (by omega)
        rw [hmap, hgd]
      · intro spec e hspec herr
        have hmap := list_getD_map
          (fun f : Str × Bundle => ((execute_agent reg f.1 f.2).1, YieldInput.bundle f.2,
            (execute_agent reg f.1 f.2).2)) fs
          ([], .planEcho p, .errDict []) ([], []) i (by omega)
        rw [hmap, hgd]
        show (execute_agent reg ((parse_plan_list (p.plan.getD [])).getD i []) b).2 = _
        unfold execute_agent
        rw [hspec]
        dsimp only
        rw [herr]

/-- C1 amended, witnessed: a two-step plan over a registry where the second
agent's invocation raises. -/
theorem execute_plan_one_tuple_per_step_witness :
    registered_ok
      (fun s => if s = str "a" ∨ s = str "b" then
          some { params := [AgentParam.goal], run := fun _ =>
            if s = str "b" then .error (str "boom") else .ok (str "fine") }
        else none)
      (parse_plan_instructions (fun _ => none) (.dictv []))
      (parse_plan_list ((some (str "a -> b")).getD [])) = true ∧
    ∃ ys, execute_plan
      (fun s => if s = str "a" ∨ s = str "b" then
          some { params := [AgentParam.goal], run := fun _ =>
            if s = str "b" then .error (str "boom") else .ok (str "fine") }
        else none)
      (fun _ => none) (str "d") (str "s") (str "g")
      { plan := some (str "a -> b"), plan_instructions := .dictv [] } = .ok ys ∧
      ys.length = 2 := by
  have hok : registered_ok
      (fun s => if s = str "a" ∨ s = str "b" then
          some { params := [AgentParam.goal], run := fun _ =>
            if s = str "b" then .error (str "boom") else .ok (str "fine") }
        else none)
      (parse_plan_instructions (fun _ => none) (.dictv []))
      (parse_plan_list ((some (str "a -> b")).getD [])) = true := by
    decide
  refine ⟨hok, ?_⟩
  obtain ⟨ys, hys, hlen, _, _⟩ := execute_plan_one_tuple_per_step
    (fun s => if s = str "a" ∨ s = str "b" then
        some { params := [AgentParam.goal], run := fun _ =>
          if s = str "b" then .error (str "boom") else .ok (str "fine") }
      else none)
    (fun _ => none) (str "d") (str "s") (str "g")
    { plan := some (str "a -> b"), plan_instructions := .dictv [] } hok
  refine ⟨ys, hys, ?_⟩
  rw [hlen]
  decide

/-- C8: for the goal "how many green vehicles do we have?", `get_plan`
bypasses the model planner (whatever that would have returned) and yields the
one-step `planner_data_viz_agent` plan; its instruction text mentions
case-insensitive filtering on color='green'; the bypass plan carries exactly
the `plan`/`plan_instructions` fields declared by the `analytical_planner`
signature, and its plan text parses to the same one-step list
`execute_plan` consumes for a model-produced plan. -/
theorem green_vehicles_bypass_plan (plannerResult : PlanDict) :
    get_plan plannerResult (str "how many green vehicles do we have?") =
      attribute_plan_dict (str "color") (str "green") ∧
    planDictFields (attribute_plan_dict (str "color") (str "green")) =
      plannerOutputFields ∧
    parse_plan_list ((attribute_plan_dict (str "color") (str "green")).plan.getD []) =
      [str "planner_data_viz_agent"] ∧
    first_instruction_key (attribute_plan_dict (str "color") (str "green")).plan_instructions =
      str "planner_data_viz_agent" ∧
    hasOccur (first_instruction_text
        (attribute_plan_dict (str "color") (str "green")).plan_instructions)
      (str "case-insensitive") = true ∧
    hasOccur (first_instruction_text
        (attribute_plan_dict (str "color") (str "green")).plan_instructions)
      (str "color=" ++ str sqc ++ str "green" ++ str sqc) = true := by
  refine ⟨?_, by decide, by decide, by decide, by decide, by decide⟩
  unfold get_plan
  rw [show detect_attribute_query (str "how many green vehicles do we have?") = true
    from by decide]
  rw [if_pos rfl]
  rw [show get_attribute_plan (str "how many green vehicles do we have?") =
    some (attribute_plan_dict (str "color") (str "green")) from by decide]

/-- Core characterization of the per-block repair path: when the error output
locates exactly one faulty block whose markers and interior are extractable,
and that block occurs exactly once in the fence-stripped script (pinned by
`hsplit`/`hpre`/`hpost`), `fix_code_with_dspy` calls the fix capability once
with only that block's interior and splices the reconstructed block between
the unchanged `pre` and `post`. -/
theorem fix_code_single_block (fixer : Str → Str → Str → Str)
    (ctx code err : Str) (nb block specErr innerCode startMarker endMarker pre post : Str)
    (hid : identify_error_blocks code err = [(nb, block, specErr)])
    (hinner : (searchAtoms innerPat block).map
        (fun r => pyStrip ((capsGet r.2.2 1).getD [])) = some innerCode)
    (hsm : (searchAtoms startMarkerPat block).map
        (fun r => pySlice block r.1 r.2.1) = some startMarker)
    (hem : (searchAtoms endMarkerPat block).map
        (fun r => pySlice block r.1 r.2.1) = some endMarker)
    (hsplit : strip_fences code = pre ++ block ++ post)
    (hblock : block ≠ [])
    (hpre : ∀ i, i < pre.length → ¬ occursAt (pre ++ block ++ post) block i)
    (hpost : hasOccur post block = false) :
    fix_code_with_dspy fixer code err ctx =
      { result := pre ++ (startMarker ++ str "\n\n" ++
          clean_fixed (fixer ctx innerCode (build_error_msg specErr)) ++
          str "\n\n" ++ endMarker) ++ post,
        calls := [(ctx, innerCode, build_error_msg specErr)] } := by
  obtain ⟨ir, hir, hic⟩ := Option.map_eq_some'.mp hinner
  obtain ⟨sr, hsr, hsc⟩ := Option.map_eq_some'.mp hsm
  obtain ⟨er, her, hec⟩ := Option.map_eq_some'.mp hem
  unfold fix_code_with_dspy
  rw [hid]
  rw [if_neg (by simp)]
  simp only [List.foldl_cons, List.foldl_nil]
  simp only [hir, hsr, her]
  rw [hsplit]
  rw [pyReplace_single pre block post _ hblock hpre
    (not_occursAt_of_hasOccur_false post block hblock hpost)]
  rw [hic, hsc, hec]
  simp

/-- C3 counterexample: error output containing no `=== ERROR IN ===` section
takes the whole-script branch, whose return value is the raw fix-capability
output — so with a fixer returning the empty string the two markers of the
input script are not preserved (and no region is byte-identical). -/
theorem fix_code_whole_script_branch_drops_markers :
    identify_error_blocks (str "# stepa code start\nA\n# stepa code end")
      (str "no error sections here") = [] ∧
    (fix_code_with_dspy (fun _ _ _ => [])
      (str "# stepa code start\nA\n# stepa code end")
      (str "no error sections here") (str "ctx")).result = [] ∧
    marker_count (str "# stepa code start\nA\n# stepa code end") = 2 ∧
    marker_count ((fix_code_with_dspy (fun _ _ _ => [])
      (str "# stepa code start\nA\n# stepa code end")
      (str "no error sections here") (str "ctx")).result) = 0 := by
  decide

/-- C3 amended: on the per-block path (the error output locates exactly one
faulty block, whose markers and interior are extractable, and the block occurs
exactly once in the fence-stripped script), the returned script is exactly
`pre ++ startMarker ++ "\n\n" ++ cleanedFix ++ "\n\n" ++ endMarker ++ post`
with `pre`/`post` the regions of the *fence-stripped* script outside the
faulty block, unchanged — so the repaired step's two markers are rebuilt
verbatim and the outside regions are byte-identical whenever the script
contains no markdown fences; the unrestricted claim fails on the no-section
branch and on scripts containing fences. -/
theorem fix_code_repair_preserves_structure (fixer : Str → Str → Str → Str)
    (ctx code err : Str)
    (nb block specErr innerCode startMarker endMarker pre post : Str)
    (hid : identify_error_blocks code err = [(nb, block, specErr)])
    (hinner : (searchAtoms innerPat block).map
        (fun r => pyStrip ((capsGet r.2.2 1).getD [])) = some innerCode)
    (hsm : (searchAtoms startMarkerPat block).map
        (fun r => pySlice block r.1 r.2.1) = some startMarker)
    (hem : (searchAtoms endMarkerPat block).map
        (fun r => pySlice block r.1 r.2.1) = some endMarker)
    (hsplit : strip_fences code = pre ++ block ++ post)
    (hblock : block ≠ [])
    (hpre : ∀ i, i < pre.length → ¬ occursAt (pre ++ block ++ post) block i)
    (hpost : hasOccur post block = false) :
    (fix_code_with_dspy fixer code err ctx).result =
      pre ++ (startMarker ++ str "\n\n" ++
        clean_fixed (fixer ctx innerCode (build_error_msg specErr)) ++
        str "\n\n" ++ endMarker) ++ post := by
  rw [fix_code_single_block fixer ctx code err nb block specErr innerCode
    startMarker endMarker pre post hid hinner hsm hem hsplit hblock hpre hpost]

/-- C3 amended, witnessed on a two-block script with an error in the second
block: the first block's region and both markers of the repaired block are
intact in the returned script. -/
theorem fix_code_repair_preserves_structure_witness :
    (fix_code_with_dspy (fun _ _ _ => str "Bfixed")
      (str "# stepa code start\nA\n# stepa code end\n# stepb code start\nB\n# stepb code end")
      (str "=== ERROR IN STEPB_AGENT === TypeError: bad") (str "ctx")).result =
      str "# stepa code start\nA\n# stepa code end\n# stepb code start\n\nBfixed\n\n# stepb code end" := by
  have h := fix_code_repair_preserves_structure (fun _ _ _ => str "Bfixed")
    (str "ctx")
    (str "# stepa code start\nA\n# stepa code end\n# stepb code start\nB\n# stepb code end")
    (str "=== ERROR IN STEPB_AGENT === TypeError: bad")
    (str "stepb") (str "# stepb code start\nB\n# stepb code end")
    (str "TypeError: bad") (str "B")
    (str "# stepb code start") (str "# stepb code end")
    (str "# stepa code start\nA\n# stepa code end\n") []
    (by decide) (by decide) (by decide) (by decide) (by decide) (by decide)
    (by decide) (by decide)
  rw [h]
  decide

/-- C4 counterexample: the backtick strip
`code.replace("```python", "").replace("```", "")` is applied to the whole
script before splicing, so with an error naming only `stepb`, the `stepa`
region containing a markdown fence is also changed — its original bytes no
longer occur in the returned script. -/
theorem fix_code_fence_strip_changes_other_region :
    identify_error_blocks
      (str "# stepa code start\nA```\n# stepa code end\n# stepb code start\nB\n# stepb code end")
      (str "=== ERROR IN STEPB_AGENT === TypeError: bad") =
      [(str "stepb", str "# stepb code start\nB\n# stepb code end", str "TypeError: bad")] ∧
    hasOccur
      ((fix_code_with_dspy (fun _ _ _ => str "FIXED")
        (str "# stepa code start\nA```\n# stepa code end\n# stepb code start\nB\n# stepb code end")
        (str "=== ERROR IN STEPB_AGENT === TypeError: bad") (str "ctx")).result)
      (str "# stepa code start\nA```\n# stepa code end") = false := by
  decide

/-- C4 amended: on the per-block path, the fix capability is called exactly
once, with only the faulty step's interior text (the stripped text strictly
between its markers) and the narrowed error, and only that step's region of
the fence-stripped script is replaced: the result is the fence-stripped script
with the faulty block swapped for its reconstruction, `pre` and `post`
untouched (byte-identical to the original outside regions whenever the script
contains no markdown fences). -/
theorem fix_code_only_faulty_interior_passed (fixer : Str → Str → Str → Str)
    (ctx code err : Str)
    (nb block specErr innerCode startMarker endMarker pre post : Str)
    (hid : identify_error_blocks code err = [(nb, block, specErr)])
    (hinner : (searchAtoms innerPat block).map
        (fun r => pyStrip ((capsGet r.2.2 1).getD [])) = some innerCode)
    (hsm : (searchAtoms startMarkerPat block).map
        (fun r => pySlice block r.1 r.2.1) = some startMarker)
    (hem : (searchAtoms endMarkerPat block).map
        (fun r => pySlice block r.1 r.2.1) = some endMarker)
    (hsplit : strip_fences code = pre ++ block ++ post)
    (hblock : block ≠ [])
    (hpre : ∀ i, i < pre.length → ¬ occursAt (pre ++ block ++ post) block i)
    (hpost : hasOccur post block = false) :
    (fix_code_with_dspy fixer code err ctx).calls =
      [(ctx, innerCode, build_error_msg specErr)] ∧
    (fix_code_with_dspy fixer code err ctx).result =
      pre ++ (startMarker ++ str "\n\n" ++
        clean_fixed (fixer ctx innerCode (build_error_msg specErr)) ++
        str "\n\n" ++ endMarker) ++ post := by
  rw [fix_code_single_block fixer ctx code err nb block specErr innerCode
    startMarker endMarker pre post hid hinner hsm hem hsplit hblock hpre hpost]
  exact ⟨rfl, rfl⟩

/-- C4 amended, witnessed: only `stepb`'s interior `"B"` reaches the fix
capability, paired with the narrowed error. -/
theorem fix_code_only_faulty_interior_passed_witness :
    (fix_code_with_dspy (fun _ _ _ => str "Bfixed")
      (str "# stepa code start\nA\n# stepa code end\n# stepb code start\nB\n# stepb code end")
      (str "=== ERROR IN STEPB_AGENT === TypeError: bad") (str "ctx")).calls =
      [(str "ctx", str "B", str "TypeError: bad")] := by
  have h := fix_code_only_faulty_interior_passed (fun _ _ _ => str "Bfixed")
    (str "ctx")
    (str "# stepa code start\nA\n# stepa code end\n# stepb code start\nB\n# stepb code end")
    (str "=== ERROR IN STEPB_AGENT === TypeError: bad")
    (str "stepb") (str "# stepb code start\nB\n# stepb code end")
    (str "TypeError: bad") (str "B")
    (str "# stepb code start") (str "# stepb code end")
    (str "# stepa code start\nA\n# stepa code end\n") []
    (by decide) (by decide) (by decide) (by decide) (by decide) (by decide)
    (by decide) (by decide)
  rw [h.1]
  decide
